import Mathlib

/-!
Shallow embedding of `src/index.ts` of `nr1etech/lucia-adapter-dynamodb`
(class `DynamoDBAdapter`), together with proofs checking the specification's
claims against it.

Modelling conventions:
* A DynamoDB/JS value appearing in an item after `unmarshall` is modelled by
  `DbValue` (string or integer number; the adapter only ever writes these two).
* A JS object (both a raw DynamoDB item after `unmarshall` and a lucia
  `attributes` record) is modelled by `Item`: its ordered list of
  key/value entries, where a *later* entry with the same key overwrites an
  earlier one on lookup (`jsGet`), exactly like a JS object literal in which
  a spread follows the explicitly written fields.
* A JS `Date` is modelled by `Option Int`: `some ms` is a valid date holding
  `ms` milliseconds since epoch, `none` is an Invalid Date (`getTime()` is
  `NaN`).  `Math.floor(x / 1000)` on integer milliseconds is `Int.fdiv · 1000`.
* A thrown JS `TypeError` (e.g. calling `.split` on `undefined`) is modelled
  by `Except JsErr`.
* The DynamoDB table is modelled by `Store`, the list of its items; key-based
  operations compare the configured partition/sort key attributes.
* String keys of the two GSIs are compared the way DynamoDB compares string
  keys, i.e. lexicographically on the character sequence (`charListLtB`,
  provably equivalent to the core `List.lt` order on the data).
-/

/-- kept from the source: `const MAX_BATCH_SIZE = 25`. -/
def MAX_BATCH_SIZE : Nat := 25

/-- A DynamoDB attribute value after `unmarshall`: the adapter reads and
writes strings and (integer) numbers. -/
inductive DbValue where
  | vStr (s : String)
  | vNum (n : Int)
deriving DecidableEq, Repr

/-- A JS object / unmarshalled DynamoDB item: ordered key/value entries. -/
abbrev Item := List (String × DbValue)

/-- JS property lookup on an object built from an entry list: the *last*
entry with the requested key wins (later literal fields / spreads overwrite
earlier ones). `none` models `undefined`. -/
def jsGet (o : Item) (k : String) : Option DbValue :=
  match o with
  | [] => none
  | (k', v) :: rest =>
    match jsGet rest k with
    | some w => some w
    | none => if k' = k then some v else none

/-- The keys of a JS object in `for ... in` enumeration order: insertion
order of the first occurrence of each key. -/
def jsKeys (o : Item) : List String :=
  match o with
  | [] => []
  | (k, _) :: rest => k :: (jsKeys rest).filter (fun k2 => !(k2 == k))

/-- The `...rest` of a JS destructuring that removes the properties named in
`names`: the remaining keys in enumeration order with their looked-up
values. -/
def jsRest (o : Item) (names : List String) : Item :=
  (jsKeys o).filterMap fun k =>
    if names.contains k then none
    else (jsGet o k).map fun v => (k, v)

/-- `String(sep)`-free fragment splitting of a char list at a separator,
embedding JS `String.prototype.split` with a single-character separator. -/
def splitChars (sep : Char) : List Char → List (List Char)
  | [] => [[]]
  | c :: rest =>
    let r := splitChars sep rest
    if c = sep then [] :: r
    else
      match r with
      | [] => [[c]]
      | h :: t => (c :: h) :: t

/-- JS `s.split(sep)` for a one-character separator. -/
def jsSplit (sep : Char) (s : String) : List String :=
  (splitChars sep s.data).map String.mk

/-- JS string interpolation of a possibly-`undefined` string value
(`` `...${x}...` `` prints `undefined` for an absent value). -/
def jsTemplate (v : Option String) : String :=
  match v with
  | some s => s
  | none => "undefined"

/-- JS `String(i)` for an integer number, as used by
`` `Expires#${expires}` ``. -/
def jsIntStr (i : Int) : String :=
  if i < 0 then "-" ++ Nat.repr i.natAbs else Nat.repr i.toNat

/-- JS numeric coercion of an attribute value as used by
`new Date(expires * 1000)`: a number is itself, a string is parsed
(approximated as integer parsing), `undefined` coerces to `NaN` (`none`). -/
def jsToNumber (v : Option DbValue) : Option Int :=
  match v with
  | some (.vNum n) => some n
  | some (.vStr s) => s.toInt?
  | none => none

/-- The adapter's configuration surface (constructor options merged with the
class field defaults of `DynamoDBAdapter`). -/
structure AdapterConfig where
  pk : String
  sk : String
  gsi1pk : String
  gsi1sk : String
  gsi2pk : String
  gsi2sk : String
  expires : String
  extraUserAttributes : List String
  extraSessionAttributes : List String
deriving DecidableEq, Repr

/-- The class-field defaults of `DynamoDBAdapter` (no options supplied). -/
def defaultConfig : AdapterConfig :=
  { pk := "Pk", sk := "Sk"
    gsi1pk := "Gs1Pk", gsi1sk := "Gs1Sk"
    gsi2pk := "Gs2Pk", gsi2sk := "Gs2Sk"
    expires := "Expires"
    extraUserAttributes := []
    extraSessionAttributes := [] }

/-- The seven attribute names computed by `setSession` / destructured away by
`itemToSession` and `itemToUser`. -/
def reservedNames (cfg : AdapterConfig) : List String :=
  [cfg.pk, cfg.sk, cfg.gsi1pk, cfg.gsi1sk, cfg.gsi2pk, cfg.gsi2sk, cfg.expires]

/-- A lucia `DatabaseSession` as handed *to* the adapter: well-typed strings
and a valid `Date` (milliseconds since epoch). -/
structure Session where
  id : String
  userId : String
  /-- `expiresAt.getTime()` in milliseconds. -/
  expiresAt : Int
  attributes : Item
deriving DecidableEq, Repr

/-- A `DatabaseSession` as *produced* by `itemToSession`: `split('#')[1]` can
be `undefined` and `new Date(NaN)` is an invalid date, so the id, userId and
date are `Option`s. -/
structure SessionOut where
  id : Option String
  userId : Option String
  /-- `expiresAt.getTime()`: `none` is an Invalid Date. -/
  expiresAt : Option Int
  attributes : Item
deriving DecidableEq, Repr

/-- A `DatabaseUser` as produced by `itemToUser`. -/
structure User where
  id : Option String
  attributes : Item
deriving DecidableEq, Repr

/-- A JS exception escaping the adapter (e.g. `undefined.split`). -/
inductive JsErr where
  | typeError
deriving DecidableEq, Repr

deriving instance DecidableEq for Except

/-- The item `setSession` builds and puts (the argument of `marshall`):
the seven computed fields, then the spread session attributes (which, coming
later in the literal, overwrite computed fields with the same name). -/
def setSessionItem (cfg : AdapterConfig) (s : Session) : Item :=
  let expires : Int := s.expiresAt.fdiv 1000
  [ (cfg.pk, .vStr ("Session#" ++ s.id)),
    (cfg.sk, .vStr "Session"),
    (cfg.gsi1pk, .vStr ("User#" ++ s.userId)),
    (cfg.gsi1sk, .vStr ("Expires#" ++ jsIntStr expires)),
    (cfg.gsi2pk, .vStr "Session"),
    (cfg.gsi2sk, .vStr ("Expires#" ++ jsIntStr expires)),
    (cfg.expires, .vNum expires) ] ++ s.attributes

/-- `itemToSession`: destructures the seven configured names away, filters
the rest through `extraSessionAttributes`, then builds the session.
`pk.split` and `gsi1pk.split` throw a `TypeError` when the attribute is
absent or not a string; `new Date(expires * 1000)` never throws but yields an
Invalid Date when `expires` does not coerce to a number. -/
def itemToSession (cfg : AdapterConfig) (item : Item) : Except JsErr SessionOut :=
  let rest := jsRest item (reservedNames cfg)
  let attributes := rest.filter fun e => !(cfg.extraSessionAttributes.contains e.1)
  match jsGet item cfg.pk with
  | some (.vStr p) =>
    match jsGet item cfg.gsi1pk with
    | some (.vStr g) =>
      .ok { id := (jsSplit '#' p)[1]?
            userId := (jsSplit '#' g)[1]?
            expiresAt := (jsToNumber (jsGet item cfg.expires)).map (· * 1000)
            attributes := attributes }
    | _ => .error .typeError
  | _ => .error .typeError

/-- `itemToUser`: same destructuring shape as `itemToSession` but only the
primary key is used, and `extraUserAttributes` is the exclusion list. -/
def itemToUser (cfg : AdapterConfig) (item : Item) : Except JsErr User :=
  let rest := jsRest item (reservedNames cfg)
  let attributes := rest.filter fun e => !(cfg.extraUserAttributes.contains e.1)
  match jsGet item cfg.pk with
  | some (.vStr p) =>
    .ok { id := (jsSplit '#' p)[1]?, attributes := attributes }
  | _ => .error .typeError

-- sanity checks on concrete inputs (schema mapper)
example :
    itemToSession defaultConfig
      [("Pk", .vStr "Session#abc"), ("Sk", .vStr "Session"),
       ("Gs1Pk", .vStr "User#u1"), ("Gs1Sk", .vStr "Expires#17"),
       ("Gs2Pk", .vStr "Session"), ("Gs2Sk", .vStr "Expires#17"),
       ("Expires", .vNum 17), ("Role", .vStr "admin")] =
    .ok { id := some "abc", userId := some "u1",
          expiresAt := some 17000, attributes := [("Role", .vStr "admin")] } := by
  decide

example :
    setSessionItem defaultConfig
      { id := "abc", userId := "u1", expiresAt := 17999, attributes := [("Role", .vStr "admin")] } =
    [("Pk", .vStr "Session#abc"), ("Sk", .vStr "Session"),
     ("Gs1Pk", .vStr "User#u1"), ("Gs1Sk", .vStr "Expires#17"),
     ("Gs2Pk", .vStr "Session"), ("Gs2Sk", .vStr "Expires#17"),
     ("Expires", .vNum 17), ("Role", .vStr "admin")] := by
  decide

/-! ## The table and the facade operations -/

/-- The DynamoDB table: its list of items. -/
abbrev Store := List Item

/-- Whether an item carries the primary key `deleteSession` /
`getSessionAndUser` / `updateSessionExpiration` address for a session id:
`[pk] = "Session#" + id`, `[sk] = "Session"`. -/
def sessionKeyMatch (cfg : AdapterConfig) (id : String) (o : Item) : Bool :=
  (jsGet o cfg.pk == some (.vStr ("Session#" ++ id))) &&
  (jsGet o cfg.sk == some (.vStr "Session"))

/-- Whether an item carries the primary key of the default user point read:
`[pk] = "User#" + userId`, `[sk] = "User"`. -/
def userKeyMatch (cfg : AdapterConfig) (userId : String) (o : Item) : Bool :=
  (jsGet o cfg.pk == some (.vStr ("User#" ++ userId))) &&
  (jsGet o cfg.sk == some (.vStr "User"))

/-- `deleteSession`: a `DeleteItemCommand` on the session's primary key;
the items with that key are removed, deleting an absent id is a no-op. -/
def deleteSession (cfg : AdapterConfig) (sessionId : String) (store : Store) : Store :=
  store.filter fun o => !(sessionKeyMatch cfg sessionId o)

/-- DynamoDB `SET #k = :v` on one item: replaces the attribute if present,
appends it otherwise. -/
def jsSet (o : Item) (k : String) (v : DbValue) : Item :=
  if o.any (fun e => e.1 == k) then
    o.map fun e => if e.1 == k then (k, v) else e
  else o ++ [(k, v)]

/-- The `UpdateExpression` of `updateSessionExpiration`:
`SET #gs1sk = :gs1sk, #gs2sk = :gs2sk, #expires = :expires` with
`:gs1sk = :gs2sk = "Expires#" + expires` and `:expires` the number. -/
def applyExpiryUpdate (cfg : AdapterConfig) (e : Int) (o : Item) : Item :=
  jsSet (jsSet (jsSet o cfg.gsi1sk (.vStr ("Expires#" ++ jsIntStr e)))
               cfg.gsi2sk (.vStr ("Expires#" ++ jsIntStr e)))
        cfg.expires (.vNum e)

/-- The `UpdateItemCommand` of `updateSessionExpiration`: keyed on the
session's primary key with `ConditionExpression '#pk = :pk AND #sk = :sk'`
on that same key, so it applies the update expression when the item exists
and fails (leaving the store unchanged) when it does not — DynamoDB's
conditional update never upserts on a failed condition. -/
def conditionalExpiryUpdate (cfg : AdapterConfig) (sessionId : String) (e : Int)
    (store : Store) : Store :=
  if store.any (sessionKeyMatch cfg sessionId) then
    store.map fun o =>
      if sessionKeyMatch cfg sessionId o then applyExpiryUpdate cfg e o else o
  else store

/-- `updateSessionExpiration(sessionId, expiresAt)` at call time `nowMs`
(`Date.now()` in milliseconds): `if (expiresAt.getTime() > Date.now())`
issue the conditional update of the expiry fields, else `deleteSession`.
An invalid date (`getTime()` is `NaN`, modelled `none`) fails the `>`
comparison and also deletes. -/
def updateSessionExpiration (cfg : AdapterConfig) (sessionId : String)
    (expiresAt : Option Int) (nowMs : Int) (store : Store) : Store :=
  match expiresAt with
  | some ms =>
    if ms > nowMs then conditionalExpiryUpdate cfg sessionId (ms.fdiv 1000) store
    else deleteSession cfg sessionId store
  | none => deleteSession cfg sessionId store

/-- The optional `getUser` strategy: receives the session's `userId` (which
`itemToSession` may have produced as `undefined`) and returns a user or
`null`. -/
abbrev GetUserFn := Option String → Option User

/-- `getSessionAndUser(sessionId)`: query the session by primary key
(`(null, null)` if absent), convert it, then fetch the user either through
the pluggable `getUser` strategy or by the default `User#userId` point read
(`(session, null)` if the user is absent). Conversion errors propagate. -/
def getSessionAndUser (cfg : AdapterConfig) (getUser : Option GetUserFn)
    (store : Store) (sessionId : String) :
    Except JsErr (Option SessionOut × Option User) :=
  match store.find? (sessionKeyMatch cfg sessionId) with
  | none => .ok (none, none)
  | some item =>
    match itemToSession cfg item with
    | .error e => .error e
    | .ok session =>
      match getUser with
      | some f => .ok (some session, f session.userId)
      | none =>
        match store.find? (userKeyMatch cfg (jsTemplate session.userId)) with
        | none => .ok (some session, none)
        | some uitem =>
          match itemToUser cfg uitem with
          | .error e => .error e
          | .ok user => .ok (some session, some user)

/-- Lexicographic (bytewise) comparison of character lists — how DynamoDB
orders and range-compares string keys. -/
def charListLtB : List Char → List Char → Bool
  | [], [] => false
  | [], _ :: _ => true
  | _ :: _, [] => false
  | a :: as, b :: bs =>
    if a < b then true else if b < a then false else charListLtB as bs

/-- DynamoDB's `<` on string key values. -/
def strLtB (s t : String) : Bool := charListLtB s.data t.data

/-- The key condition of `deleteExpiredSessions` on the second GSI:
`#gs2pk = :gs2pk AND #gs2sk < :gs2sk_end` with `:gs2pk = "Session"` and
`:gs2sk_end = "Expires#" + now`; DynamoDB compares string keys
lexicographically. -/
def expiredMatch (cfg : AdapterConfig) (now : Int) (o : Item) : Bool :=
  (jsGet o cfg.gsi2pk == some (.vStr "Session")) &&
  (match jsGet o cfg.gsi2sk with
   | some (.vStr s2) => strLtB s2 ("Expires#" ++ jsIntStr now)
   | _ => false)

/-- An item's primary key pair, as collected by the sweep's
`ProjectionExpression '#pk, #sk'`. -/
def itemKey (cfg : AdapterConfig) (o : Item) : Option DbValue × Option DbValue :=
  (jsGet o cfg.pk, jsGet o cfg.sk)

/-- `deleteExpiredSessions()` at sweep time `now` (epoch seconds, computed
at call time): query the second GSI for all keys strictly below the
`"Expires#" + now` boundary, then batch-delete every collected primary
key. -/
def deleteExpiredSessions (cfg : AdapterConfig) (now : Int) (store : Store) : Store :=
  let keys := (store.filter (expiredMatch cfg now)).map (itemKey cfg)
  store.filter fun o => !(keys.contains (itemKey cfg o))

/-! ## Paginated query executor and batch delete executor -/

/-- The `do ... while (_lastEvaluatedKey)` pagination loop shared by
`getUserSessions`, `deleteUserSessions` and `deleteExpiredSessions`: the
store serves the matching result set as a sequence of pages, a response's
`LastEvaluatedKey` is the continuation token selecting the remaining page
suffix, and the loop re-issues the query with it, strictly sequentially,
accumulating `res.Items` until no token is returned. -/
def queryAllPages (pages : List (List Item)) : List Item :=
  match pages with
  | [] => []
  | page :: rest => page ++ queryAllPages rest

/-- One fuel-indexed step list of the batch-delete loop
`for (let i = 0; i < keys.length; i += MAX_BATCH_SIZE)`:
each iteration sends `keys.slice(i, i + MAX_BATCH_SIZE)` as one
`BatchWriteItemCommand`. -/
def batchRequestsGo {K : Type} : Nat → List K → List (List K)
  | _, [] => []
  | 0, _ => []
  | fuel + 1, l => l.take MAX_BATCH_SIZE :: batchRequestsGo fuel (l.drop MAX_BATCH_SIZE)

/-- The batch-delete requests issued for a key list (the loop always
terminates within `keys.length` iterations). -/
def batchRequests {K : Type} (keys : List K) : List (List K) :=
  batchRequestsGo keys.length keys

-- sanity checks on concrete inputs (store operations, executors)
example :
    deleteSession defaultConfig "a"
      [[("Pk", .vStr "Session#a"), ("Sk", .vStr "Session")],
       [("Pk", .vStr "Session#b"), ("Sk", .vStr "Session")]] =
    [[("Pk", .vStr "Session#b"), ("Sk", .vStr "Session")]] := by decide

example : (batchRequests (List.range 57)).map List.length = [25, 25, 7] := by decide

example : queryAllPages [[[("A", .vNum 1)]], [], [[("B", .vNum 2)]]] =
    [[("A", .vNum 1)], [("B", .vNum 2)]] := by decide

/-! ## Lemmas about the JS object model -/

theorem jsGet_append (l₁ l₂ : Item) (k : String) :
    jsGet (l₁ ++ l₂) k =
      match jsGet l₂ k with
      | some v => some v
      | none => jsGet l₁ k := by
  induction l₁ with
  | nil => simp [jsGet]; cases jsGet l₂ k <;> rfl
  | cons e l₁ ih =>
    obtain ⟨k', v⟩ := e
    show (match jsGet (l₁ ++ l₂) k with
          | some w => some w
          | none => if k' = k then some v else none) =
         match jsGet l₂ k with
         | some w => some w
         | none =>
           match jsGet l₁ k with
           | some w => some w
           | none => if k' = k then some v else none
    rw [ih]
    cases jsGet l₂ k <;> cases jsGet l₁ k <;> rfl

theorem jsGet_eq_none_of_not_mem (l : Item) (k : String)
    (h : ¬ k ∈ l.map Prod.fst) : jsGet l k = none := by
  induction l with
  | nil => rfl
  | cons e l ih =>
    obtain ⟨k', v⟩ := e
    simp only [List.map_cons, List.mem_cons, not_or] at h
    show (match jsGet l k with
          | some w => some w
          | none => if k' = k then some v else none) = none
    rw [ih h.2]
    show (if k' = k then some v else none) = none
    rw [if_neg (fun hc => h.1 hc.symm)]

theorem jsGet_isSome_of_mem (l : Item) (k : String)
    (h : k ∈ l.map Prod.fst) : ∃ v, jsGet l k = some v := by
  induction l with
  | nil => simp at h
  | cons e l ih =>
    obtain ⟨k', v⟩ := e
    simp only [List.map_cons, List.mem_cons] at h
    simp only [jsGet]
    cases hrest : jsGet l k with
    | some w => exact ⟨w, rfl⟩
    | none =>
      rcases h with h | h
      · exact ⟨v, by simp [h]⟩
      · obtain ⟨w, hw⟩ := ih h
        simp [hw] at hrest

theorem jsKeys_of_nodup (l : Item) (h : (l.map Prod.fst).Nodup) :
    jsKeys l = l.map Prod.fst := by
  induction l with
  | nil => rfl
  | cons e l ih =>
    obtain ⟨k, v⟩ := e
    simp only [List.map_cons, List.nodup_cons] at h
    simp only [jsKeys, List.map_cons, ih h.2]
    congr 1
    apply List.filter_eq_self.mpr
    intro a ha
    have hne : ¬ a = k := fun heq => h.1 (heq ▸ ha)
    simp [hne]

/-- In the model an entry list with nodup keys is recovered from its keys by
lookup; this is the reconstruction step of the `...rest` destructuring. -/
theorem filterMap_jsGet_of_nodup (l : Item) (h : (l.map Prod.fst).Nodup) :
    ((l.map Prod.fst).filterMap fun k => (jsGet l k).map fun v => (k, v)) = l := by
  induction l with
  | nil => rfl
  | cons e l ih =>
    obtain ⟨k, v⟩ := e
    simp only [List.map_cons, List.nodup_cons] at h
    simp only [List.map_cons, List.filterMap_cons]
    have hk : jsGet ((k, v) :: l) k = some v := by
      simp [jsGet, jsGet_eq_none_of_not_mem l k h.1]
    rw [hk]
    simp only [Option.map_some']
    congr 1
    calc ((l.map Prod.fst).filterMap fun k2 => (jsGet ((k, v) :: l) k2).map fun w => (k2, w))
        = (l.map Prod.fst).filterMap fun k2 => (jsGet l k2).map fun w => (k2, w) := by
          apply List.filterMap_congr
          intro k2 hk2
          have hne : k ≠ k2 := by rintro rfl; exact h.1 hk2
          obtain ⟨w, hw⟩ := jsGet_isSome_of_mem l k2 hk2
          simp [jsGet, hw]
      _ = l := ih h.2

theorem jsGet_filter_eq_none (l : Item) (p : String × DbValue → Bool) (k : String)
    (h : ∀ v, p (k, v) = false) : jsGet (l.filter p) k = none := by
  apply jsGet_eq_none_of_not_mem
  intro hmem
  simp only [List.mem_map] at hmem
  obtain ⟨⟨k', v⟩, hmem, hfst⟩ := hmem
  cases hfst
  have := (List.mem_filter.mp hmem).2
  rw [h v] at this
  exact Bool.false_ne_true this

theorem jsGet_cons (k₀ : String) (w : DbValue) (rest : Item) (k : String) :
    jsGet ((k₀, w) :: rest) k =
      match jsGet rest k with
      | some u => some u
      | none => if k₀ = k then some w else none := rfl

theorem not_mem_keys_of_any_false (o : Item) (k : String)
    (h : o.any (fun e => e.1 == k) = false) : ¬ k ∈ o.map Prod.fst := by
  intro hm
  rcases List.mem_map.mp hm with ⟨⟨a, b⟩, hab, hfst⟩
  have htrue : (List.any o fun e => e.1 == k) = true := by
    apply List.any_eq_true.mpr
    refine ⟨(a, b), hab, ?_⟩
    show ((a, b).1 == k) = true
    rw [hfst]
    simp
  rw [h] at htrue
  exact Bool.false_ne_true htrue

theorem map_eq_self_of_no_key (l : Item) (k : String) (v : DbValue)
    (h : l.any (fun e => e.1 == k) = false) :
    (l.map fun e => if e.1 == k then (k, v) else e) = l := by
  induction l with
  | nil => rfl
  | cons e l ih =>
    simp only [List.any_cons, Bool.or_eq_false_iff] at h
    have hne : ¬ e.1 = k := by simpa using h.1
    simp only [List.map_cons, ih h.2]
    rw [if_neg (by simp [hne])]

theorem jsGet_map_replace_self (o : Item) (k : String) (v : DbValue)
    (h : o.any (fun e => e.1 == k) = true) :
    jsGet (o.map fun e => if e.1 == k then (k, v) else e) k = some v := by
  induction o with
  | nil => simp at h
  | cons e o ih =>
    obtain ⟨k₀, w⟩ := e
    simp only [List.map_cons]
    by_cases hrest : o.any (fun e => e.1 == k) = true
    · by_cases hk₀ : k₀ = k
      · subst hk₀
        rw [if_pos (by simp), jsGet_cons, ih hrest]
      · rw [if_neg (by simp [hk₀]), jsGet_cons, ih hrest]
    · have hfalse : o.any (fun e => e.1 == k) = false := by
        cases hb : o.any (fun e => e.1 == k) with
        | false => rfl
        | true => exact absurd hb hrest
      have hk₀ : k₀ = k := by
        simp only [List.any_cons, hfalse, Bool.or_false] at h
        simpa using h
      subst hk₀
      rw [if_pos (by simp), jsGet_cons, map_eq_self_of_no_key o k₀ v hfalse,
        jsGet_eq_none_of_not_mem o k₀ (not_mem_keys_of_any_false o k₀ hfalse),
        if_pos rfl]

theorem jsGet_map_replace_other (o : Item) (k : String) (v : DbValue) (k' : String)
    (h : k' ≠ k) :
    jsGet (o.map fun e => if e.1 == k then (k, v) else e) k' = jsGet o k' := by
  induction o with
  | nil => rfl
  | cons e o ih =>
    obtain ⟨k₀, w⟩ := e
    simp only [List.map_cons]
    by_cases hk₀ : k₀ = k
    · subst hk₀
      rw [if_pos (by simp), jsGet_cons, jsGet_cons, ih]
      have hne : ¬ k₀ = k' := fun hc => h (hc ▸ rfl)
      cases jsGet o k' <;> simp [hne]
    · rw [if_neg (by simp [hk₀]), jsGet_cons, jsGet_cons, ih]

theorem jsGet_jsSet_self (o : Item) (k : String) (v : DbValue) :
    jsGet (jsSet o k v) k = some v := by
  unfold jsSet
  split
  next hany => exact jsGet_map_replace_self o k v hany
  next hany =>
    rw [jsGet_append]
    have h1 : jsGet [(k, v)] k = some v := by
      show (if k = k then some v else none) = some v
      rw [if_pos rfl]
    rw [h1]

theorem jsGet_jsSet_other (o : Item) (k k' : String) (v : DbValue) (h : k' ≠ k) :
    jsGet (jsSet o k v) k' = jsGet o k' := by
  unfold jsSet
  split
  next hany => exact jsGet_map_replace_other o k v k' h
  next hany =>
    rw [jsGet_append]
    have h1 : jsGet [(k, v)] k' = none := by
      show (if k = k' then some v else none) = none
      rw [if_neg (fun hc => h hc.symm)]
    rw [h1]

theorem find?_filter_not {α : Type} (l : List α) (p : α → Bool) :
    (l.filter fun o => !(p o)).find? p = none := by
  induction l with
  | nil => rfl
  | cons e l ih =>
    by_cases he : p e = true
    · simp [List.filter_cons, he, ih]
    · simp only [Bool.not_eq_true] at he
      simp [List.filter_cons, he, List.find?_cons, ih]

/-! ## Lemmas about JS string splitting -/

theorem splitChars_cons (sep c : Char) (rest : List Char) :
    splitChars sep (c :: rest) =
      if c = sep then [] :: splitChars sep rest
      else
        match splitChars sep rest with
        | [] => [[c]]
        | h :: t => (c :: h) :: t := rfl

theorem splitChars_not_mem (sep : Char) (l : List Char) (h : ¬ sep ∈ l) :
    splitChars sep l = [l] := by
  induction l with
  | nil => rfl
  | cons c rest ih =>
    simp only [List.mem_cons, not_or] at h
    rw [splitChars_cons, if_neg (fun hc => h.1 hc.symm), ih h.2]

theorem splitChars_prefix (sep : Char) (l₁ l₂ : List Char) (h : ¬ sep ∈ l₁) :
    splitChars sep (l₁ ++ sep :: l₂) = l₁ :: splitChars sep l₂ := by
  induction l₁ with
  | nil => simp [splitChars_cons]
  | cons c l₁ ih =>
    simp only [List.mem_cons, not_or] at h
    rw [List.cons_append, splitChars_cons, if_neg (fun hc => h.1 hc.symm), ih h.2]

theorem jsSplit_session_id (id : String) (h : ¬ '#' ∈ id.data) :
    jsSplit '#' ("Session#" ++ id) = ["Session", id] := by
  unfold jsSplit
  rw [String.data_append]
  have h2 : ("Session#").data ++ id.data =
      ['S', 'e', 's', 's', 'i', 'o', 'n'] ++ '#' :: id.data := rfl
  rw [h2, splitChars_prefix _ _ _ (by decide), splitChars_not_mem _ _ h]
  rfl

theorem jsSplit_user_id (id : String) (h : ¬ '#' ∈ id.data) :
    jsSplit '#' ("User#" ++ id) = ["User", id] := by
  unfold jsSplit
  rw [String.data_append]
  have h2 : ("User#").data ++ id.data = ['U', 's', 'e', 'r'] ++ '#' :: id.data := rfl
  rw [h2, splitChars_prefix _ _ _ (by decide), splitChars_not_mem _ _ h]
  rfl

/-! ## Evaluation lemmas for the schema mapper -/

theorem contains_eq_false_of_not_mem {α : Type} [BEq α] [LawfulBEq α]
    (l : List α) (a : α) (h : ¬ a ∈ l) : l.contains a = false := by
  show l.elem a = false
  rw [List.elem_eq_mem, decide_eq_false h]

theorem setSessionItem_eq (cfg : AdapterConfig) (s : Session) :
    setSessionItem cfg s =
      [ (cfg.pk, .vStr ("Session#" ++ s.id)),
        (cfg.sk, .vStr "Session"),
        (cfg.gsi1pk, .vStr ("User#" ++ s.userId)),
        (cfg.gsi1sk, .vStr ("Expires#" ++ jsIntStr (s.expiresAt.fdiv 1000))),
        (cfg.gsi2pk, .vStr "Session"),
        (cfg.gsi2sk, .vStr ("Expires#" ++ jsIntStr (s.expiresAt.fdiv 1000))),
        (cfg.expires, .vNum (s.expiresAt.fdiv 1000)) ] ++ s.attributes := rfl

theorem itemToSession_eq_of_lookups (cfg : AdapterConfig) (item : Item) (p g : String)
    (hp : jsGet item cfg.pk = some (.vStr p))
    (hg : jsGet item cfg.gsi1pk = some (.vStr g)) :
    itemToSession cfg item =
      .ok { id := (jsSplit '#' p)[1]?
            userId := (jsSplit '#' g)[1]?
            expiresAt := (jsToNumber (jsGet item cfg.expires)).map (· * 1000)
            attributes :=
              (jsRest item (reservedNames cfg)).filter
                fun e => !(cfg.extraSessionAttributes.contains e.1) } := by
  unfold itemToSession
  rw [hp, hg]

theorem itemToUser_eq_of_lookup (cfg : AdapterConfig) (item : Item) (p : String)
    (hp : jsGet item cfg.pk = some (.vStr p)) :
    itemToUser cfg item =
      .ok { id := (jsSplit '#' p)[1]?
            attributes :=
              (jsRest item (reservedNames cfg)).filter
                fun e => !(cfg.extraUserAttributes.contains e.1) } := by
  unfold itemToUser
  rw [hp]

/-- Destructuring a well-formed `base ++ attrs` item whose base keys are all
destructured names and whose attribute keys avoid them recovers exactly the
attribute entries. -/
theorem jsRest_base_append (base attrs : Item) (names : List String)
    (hnodupAll : ((base ++ attrs).map Prod.fst).Nodup)
    (hbase : ∀ k ∈ base.map Prod.fst, names.contains k = true)
    (hdisj : ∀ k ∈ attrs.map Prod.fst, names.contains k = false) :
    jsRest (base ++ attrs) names = attrs := by
  have hnodupattrs : (attrs.map Prod.fst).Nodup := by
    have hsplit : (base.map Prod.fst ++ attrs.map Prod.fst).Nodup := by
      rw [← List.map_append]; exact hnodupAll
    exact (List.nodup_append.mp hsplit).2.1
  unfold jsRest
  rw [jsKeys_of_nodup _ hnodupAll, List.map_append, List.filterMap_append]
  have h1 : ((base.map Prod.fst).filterMap fun k =>
      if names.contains k then none
      else (jsGet (base ++ attrs) k).map fun v => (k, v)) = [] := by
    apply List.filterMap_eq_nil_iff.mpr
    intro k hk
    rw [if_pos (hbase k hk)]
  have h2 : ((attrs.map Prod.fst).filterMap fun k =>
      if names.contains k then none
      else (jsGet (base ++ attrs) k).map fun v => (k, v)) = attrs := by
    have hcongr : ∀ k ∈ attrs.map Prod.fst,
        (if names.contains k then none
         else (jsGet (base ++ attrs) k).map fun v => (k, v)) =
        (jsGet attrs k).map fun v => (k, v) := by
      intro k hk
      rw [if_neg (fun hc => by rw [hdisj _ hk] at hc; exact Bool.false_ne_true hc)]
      obtain ⟨w, hw⟩ := jsGet_isSome_of_mem attrs k hk
      rw [jsGet_append, hw]
    rw [List.filterMap_congr hcongr]
    exact filterMap_jsGet_of_nodup attrs hnodupattrs
  rw [h1, h2, List.nil_append]

/-- C1 (round-trip), general form: a valid session — one whose id and userId
contain no `'#'`, and whose attribute names are distinct and avoid the seven
reserved item field names — is recovered exactly by `itemToSession` from the
item `setSession` writes, with `expiresAt` truncated to whole seconds. -/
theorem roundtrip_general (s : Session)
    (hid : ¬ '#' ∈ s.id.data) (huid : ¬ '#' ∈ s.userId.data)
    (hnodup : (s.attributes.map Prod.fst).Nodup)
    (hdisj : ∀ k ∈ s.attributes.map Prod.fst, ¬ k ∈ reservedNames defaultConfig) :
    itemToSession defaultConfig (setSessionItem defaultConfig s) =
      .ok { id := some s.id, userId := some s.userId,
            expiresAt := some (s.expiresAt.fdiv 1000 * 1000),
            attributes := s.attributes } := by
  have hPkMem : ¬ defaultConfig.pk ∈ s.attributes.map Prod.fst :=
    fun hm => hdisj _ hm (by decide)
  have hGs1PkMem : ¬ defaultConfig.gsi1pk ∈ s.attributes.map Prod.fst :=
    fun hm => hdisj _ hm (by decide)
  have hExpMem : ¬ defaultConfig.expires ∈ s.attributes.map Prod.fst :=
    fun hm => hdisj _ hm (by decide)
  have hpk : jsGet (setSessionItem defaultConfig s) defaultConfig.pk =
      some (.vStr ("Session#" ++ s.id)) := by
    rw [setSessionItem_eq, jsGet_append,
      jsGet_eq_none_of_not_mem s.attributes _ hPkMem]
    rfl
  have hgs1 : jsGet (setSessionItem defaultConfig s) defaultConfig.gsi1pk =
      some (.vStr ("User#" ++ s.userId)) := by
    rw [setSessionItem_eq, jsGet_append,
      jsGet_eq_none_of_not_mem s.attributes _ hGs1PkMem]
    rfl
  have hexp : jsGet (setSessionItem defaultConfig s) defaultConfig.expires =
      some (.vNum (s.expiresAt.fdiv 1000)) := by
    rw [setSessionItem_eq, jsGet_append,
      jsGet_eq_none_of_not_mem s.attributes _ hExpMem]
    rfl
  have hrest : jsRest (setSessionItem defaultConfig s) (reservedNames defaultConfig) =
      s.attributes := by
    rw [setSessionItem_eq]
    apply jsRest_base_append
    · rw [List.map_append, List.nodup_append]
      refine ⟨?_, hnodup, ?_⟩
      · show (reservedNames defaultConfig).Nodup
        decide
      · intro k hk hk2
        exact hdisj k hk2 hk
    · intro k hk
      have hmem : k ∈ reservedNames defaultConfig := hk
      show (reservedNames defaultConfig).elem k = true
      exact List.elem_eq_true_of_mem hmem
    · intro k hk
      exact contains_eq_false_of_not_mem _ _ (hdisj k hk)
  rw [itemToSession_eq_of_lookups defaultConfig _ _ _ hpk hgs1, hexp, hrest]
  rw [jsSplit_session_id s.id hid, jsSplit_user_id s.userId huid]
  have hfilter : (fun (e : String × DbValue) =>
      !(defaultConfig.extraSessionAttributes.contains e.1)) = fun _ => true := rfl
  rw [hfilter, List.filter_true]
  rfl

/-- C1: for every valid Session value `s` (id and userId free of the `'#'`
key separator, attribute names distinct and disjoint from the configured
item field names), converting `s` to an item via `setSession`'s item
construction and back via `itemToSession` yields `s` again: id, userId and
the attribute map exactly, and `expiresAt` exactly to second precision
(the recovered date is `expiresAt` truncated to whole seconds, so the two
dates agree on their epoch-seconds value). -/
theorem setSession_itemToSession_roundtrip (s : Session)
    (hid : ¬ '#' ∈ s.id.data) (huid : ¬ '#' ∈ s.userId.data)
    (hnodup : (s.attributes.map Prod.fst).Nodup)
    (hdisj : ∀ k ∈ s.attributes.map Prod.fst, ¬ k ∈ reservedNames defaultConfig) :
    itemToSession defaultConfig (setSessionItem defaultConfig s) =
      .ok { id := some s.id, userId := some s.userId,
            expiresAt := some (s.expiresAt.fdiv 1000 * 1000),
            attributes := s.attributes } ∧
    (s.expiresAt.fdiv 1000 * 1000).fdiv 1000 = s.expiresAt.fdiv 1000 := by
  refine ⟨roundtrip_general s hid huid hnodup hdisj, ?_⟩
  exact Int.mul_fdiv_cancel _ (by norm_num)

/-- Witness for C1: the round trip evaluated at a concrete valid session. -/
theorem setSession_itemToSession_roundtrip_witness :
    itemToSession defaultConfig (setSessionItem defaultConfig
        { id := "abc", userId := "u1", expiresAt := 17999,
          attributes := [("Role", DbValue.vStr "admin")] }) =
      .ok { id := some "abc", userId := some "u1", expiresAt := some 17000,
            attributes := [("Role", DbValue.vStr "admin")] } :=
  (setSession_itemToSession_roundtrip
    { id := "abc", userId := "u1", expiresAt := 17999,
      attributes := [("Role", DbValue.vStr "admin")] }
    (by decide) (by decide) (by decide) (by decide)).1

theorem contains_eq_true_of_mem {α : Type} [BEq α] [LawfulBEq α]
    (l : List α) (a : α) (h : a ∈ l) : l.contains a = true :=
  List.elem_eq_true_of_mem h

/-- C9: an attribute name on the configured exclusion list
(`extraUserAttributes` for users, `extraSessionAttributes` for sessions)
never appears in the `attributes` mapping of the entity produced by the
item-to-entity conversion. -/
theorem excluded_attributes_never_surface (cfg : AdapterConfig) (item : Item) (k : String) :
    (k ∈ cfg.extraUserAttributes →
      ∀ u, itemToUser cfg item = .ok u → jsGet u.attributes k = none) ∧
    (k ∈ cfg.extraSessionAttributes →
      ∀ s, itemToSession cfg item = .ok s → jsGet s.attributes k = none) := by
  constructor
  · intro hk u hu
    cases hpk : jsGet item cfg.pk with
    | none =>
      unfold itemToUser at hu
      rw [hpk] at hu
      exact absurd hu (by simp)
    | some val =>
      cases val with
      | vNum n =>
        unfold itemToUser at hu
        rw [hpk] at hu
        exact absurd hu (by simp)
      | vStr p =>
        rw [itemToUser_eq_of_lookup cfg item p hpk] at hu
        have hattr : u.attributes =
            (jsRest item (reservedNames cfg)).filter
              fun e => !(cfg.extraUserAttributes.contains e.1) := by
          cases hu
          rfl
        rw [hattr]
        apply jsGet_filter_eq_none
        intro v
        show (!(cfg.extraUserAttributes.contains k)) = false
        rw [contains_eq_true_of_mem _ _ hk]
        rfl
  · intro hk s hs
    cases hpk : jsGet item cfg.pk with
    | none =>
      unfold itemToSession at hs
      rw [hpk] at hs
      exact absurd hs (by simp)
    | some val =>
      cases val with
      | vNum n =>
        unfold itemToSession at hs
        rw [hpk] at hs
        exact absurd hs (by simp)
      | vStr p =>
        cases hg : jsGet item cfg.gsi1pk with
        | none =>
          unfold itemToSession at hs
          rw [hpk, hg] at hs
          exact absurd hs (by simp)
        | some gval =>
          cases gval with
          | vNum n =>
            unfold itemToSession at hs
            rw [hpk, hg] at hs
            exact absurd hs (by simp)
          | vStr g =>
            rw [itemToSession_eq_of_lookups cfg item p g hpk hg] at hs
            have hattr : s.attributes =
                (jsRest item (reservedNames cfg)).filter
                  fun e => !(cfg.extraSessionAttributes.contains e.1) := by
              cases hs
              rfl
            rw [hattr]
            apply jsGet_filter_eq_none
            intro v
            show (!(cfg.extraSessionAttributes.contains k)) = false
            rw [contains_eq_true_of_mem _ _ hk]
            rfl

/-- Witness for C9: a user record carrying the excluded attribute
`"HashedPassword"` (the test configuration) surfaces only its other
attributes. -/
theorem excluded_attributes_never_surface_witness :
    jsGet (User.mk (some "uid") [("Email", DbValue.vStr "e")]).attributes
      "HashedPassword" = none :=
  (excluded_attributes_never_surface
      { defaultConfig with extraUserAttributes := ["HashedPassword"] }
      [("Pk", DbValue.vStr "User#uid"), ("Sk", DbValue.vStr "User"),
       ("HashedPassword", DbValue.vStr "123456"), ("Email", DbValue.vStr "e")]
      "HashedPassword").1 (by decide)
    (User.mk (some "uid") [("Email", DbValue.vStr "e")]) (by decide)

/-- C10: in `setSession` the session attributes are spread *after* the
computed key and bookkeeping fields, so an attribute whose name equals one
of the configured field names (under defaults `Pk`, `Sk`, `Gs1Pk`, `Gs1Sk`,
`Gs2Pk`, `Gs2Sk`, `Expires`) silently overwrites the computed field in the
written item; concretely, a session carrying an attribute `"Pk"` loses its
computed primary key, and the round trip then fails to recover its id
(and drops the attribute). -/
theorem setSession_attributes_overwrite_reserved :
    (∀ (s : Session) (k : String) (v : DbValue),
      k ∈ reservedNames defaultConfig →
      jsGet s.attributes k = some v →
      jsGet (setSessionItem defaultConfig s) k = some v) ∧
    itemToSession defaultConfig (setSessionItem defaultConfig
        { id := "abc", userId := "u1", expiresAt := 17999,
          attributes := [("Pk", DbValue.vStr "X")] }) =
      .ok { id := none, userId := some "u1", expiresAt := some 17000,
            attributes := [] } := by
  constructor
  · intro s k v _ hv
    rw [setSessionItem_eq, jsGet_append, hv]
  · decide

/-- Witness for C10: the overwrite evaluated on the concrete session used in
the theorem — its written item carries `Pk = "X"` instead of the computed
`"Session#abc"`. -/
theorem setSession_attributes_overwrite_reserved_witness :
    jsGet (setSessionItem defaultConfig
        { id := "abc", userId := "u1", expiresAt := 17999,
          attributes := [("Pk", DbValue.vStr "X")] }) "Pk" =
      some (DbValue.vStr "X") :=
  setSession_attributes_overwrite_reserved.1
    { id := "abc", userId := "u1", expiresAt := 17999,
      attributes := [("Pk", DbValue.vStr "X")] }
    "Pk" (DbValue.vStr "X") (by decide) (by decide)

/-- C2 counterexample: an item whose numeric expiry attribute is entirely
absent is *not* rejected by `itemToSession` — the conversion succeeds and
returns a session entity whose `expiresAt` is an invalid date, contradicting
the claim that such items fail with a distinct `MalformedRecordError`
(no such error exists in the code). -/
theorem itemToSession_missing_expiry_succeeds :
    itemToSession defaultConfig
      [("Pk", DbValue.vStr "Session#abc"), ("Sk", DbValue.vStr "Session"),
       ("Gs1Pk", DbValue.vStr "User#u1")] =
      .ok { id := some "abc", userId := some "u1", expiresAt := none,
            attributes := [] } := by
  decide

/-- C2 amended: when the primary-key attribute is absent (or not a string)
`itemToSession` throws a plain `TypeError` (from `undefined.split`), not a
distinct `MalformedRecordError`; and when the expiry attribute is absent or
does not coerce to a number the conversion does not fail at all — it
succeeds and returns a session whose `expiresAt` is an invalid date. -/
theorem itemToSession_malformed_behavior (cfg : AdapterConfig) (item : Item) :
    (jsGet item cfg.pk = none → itemToSession cfg item = .error .typeError) ∧
    (∀ p g, jsGet item cfg.pk = some (.vStr p) →
      jsGet item cfg.gsi1pk = some (.vStr g) →
      jsToNumber (jsGet item cfg.expires) = none →
      ∃ s, itemToSession cfg item = .ok s ∧ s.expiresAt = none) := by
  constructor
  · intro h
    unfold itemToSession
    rw [h]
  · intro p g hp hg hnum
    rw [itemToSession_eq_of_lookups cfg item p g hp hg]
    refine ⟨_, rfl, ?_⟩
    show ((jsToNumber (jsGet item cfg.expires)).map (· * 1000) : Option Int) = none
    rw [hnum]
    rfl

/-- Witness for C2 (amended): a missing primary key throws, and an item
whose expiry attribute does not coerce to a number converts successfully to
an invalid date. -/
theorem itemToSession_malformed_behavior_witness :
    itemToSession defaultConfig [("Gs1Pk", DbValue.vStr "User#u")] =
      .error .typeError ∧
    ∃ s, itemToSession defaultConfig
        [("Pk", DbValue.vStr "Session#a"), ("Sk", DbValue.vStr "Session"),
         ("Gs1Pk", DbValue.vStr "User#u"), ("Role", DbValue.vStr "r")] =
        .ok s ∧ s.expiresAt = none :=
  ⟨(itemToSession_malformed_behavior defaultConfig _).1 (by decide),
   (itemToSession_malformed_behavior defaultConfig _).2 "Session#a" "User#u"
     (by decide) (by decide) (by decide)⟩

/-! ## Pagination and batch-delete lemmas -/

theorem queryAllPages_eq_join (pages : List (List Item)) :
    queryAllPages pages = pages.flatten := by
  induction pages with
  | nil => rfl
  | cons page rest ih =>
    show page ++ queryAllPages rest = page ++ rest.flatten
    rw [ih]

/-- C3: when the store serves the true result set of a key condition split
across any number of physical pages, the `do ... while (LastEvaluatedKey)`
loop (shared by `getUserSessions`, `deleteUserSessions` and
`deleteExpiredSessions`) returns exactly that result set — same length,
same multiplicity of every item, no duplicates, no omissions — because it
concatenates the pages strictly sequentially and only returns after the
last page. -/
theorem pagination_complete (pages : List (List Item)) (R : List Item)
    (h : pages.flatten = R) :
    queryAllPages pages = R ∧
    (queryAllPages pages).length = R.length ∧
    ∀ x, (queryAllPages pages).count x = R.count x := by
  have he : queryAllPages pages = R := by rw [queryAllPages_eq_join, h]
  exact ⟨he, by rw [he], fun x => by rw [he]⟩

/-- Witness for C3: three pages of sizes 1, 0 and 2 reassemble into the
three-item result set. -/
theorem pagination_complete_witness :
    queryAllPages [[[("A", DbValue.vNum 1)]], [],
        [[("B", DbValue.vNum 2)], [("C", DbValue.vNum 3)]]] =
      [[("A", DbValue.vNum 1)], [("B", DbValue.vNum 2)], [("C", DbValue.vNum 3)]] :=
  (pagination_complete _ _ (by decide)).1

theorem batchRequestsGo_join {K : Type} :
    ∀ (fuel : Nat) (l : List K), l.length ≤ fuel →
      (batchRequestsGo fuel l).flatten = l := by
  intro fuel
  induction fuel with
  | zero =>
    intro l hl
    have : l = [] := List.eq_nil_of_length_eq_zero (Nat.le_zero.mp hl)
    subst this
    rfl
  | succ fuel ih =>
    intro l hl
    cases l with
    | nil => rfl
    | cons a l' =>
      have hlen : ((a :: l').drop MAX_BATCH_SIZE).length ≤ fuel := by
        rw [List.length_drop]
        simp only [List.length_cons, MAX_BATCH_SIZE] at hl ⊢
        omega
      show ((a :: l').take MAX_BATCH_SIZE ::
          batchRequestsGo fuel ((a :: l').drop MAX_BATCH_SIZE)).flatten = a :: l'
      rw [List.flatten_cons, ih _ hlen, List.take_append_drop]

theorem batchRequestsGo_length {K : Type} :
    ∀ (fuel : Nat) (l : List K), l.length ≤ fuel →
      (batchRequestsGo fuel l).length = (l.length + 24) / 25 := by
  intro fuel
  induction fuel with
  | zero =>
    intro l hl
    have : l = [] := List.eq_nil_of_length_eq_zero (Nat.le_zero.mp hl)
    subst this
    simp [batchRequestsGo]
  | succ fuel ih =>
    intro l hl
    cases l with
    | nil => simp [batchRequestsGo]
    | cons a l' =>
      have hlen : ((a :: l').drop MAX_BATCH_SIZE).length ≤ fuel := by
        rw [List.length_drop]
        simp only [List.length_cons, MAX_BATCH_SIZE] at hl ⊢
        omega
      show ((a :: l').take MAX_BATCH_SIZE ::
          batchRequestsGo fuel ((a :: l').drop MAX_BATCH_SIZE)).length =
        ((a :: l').length + 24) / 25
      rw [List.length_cons, ih _ hlen, List.length_drop]
      simp only [List.length_cons, MAX_BATCH_SIZE]
      omega

theorem batchRequestsGo_sizes {K : Type} :
    ∀ (fuel : Nat) (l : List K),
      ((batchRequestsGo fuel l).all fun c => c.length ≤ 25) = true := by
  intro fuel
  induction fuel with
  | zero =>
    intro l
    cases l <;> rfl
  | succ fuel ih =>
    intro l
    cases l with
    | nil => rfl
    | cons a l' =>
      show ((a :: l').take MAX_BATCH_SIZE ::
          batchRequestsGo fuel ((a :: l').drop MAX_BATCH_SIZE)).all
            (fun c => c.length ≤ 25) = true
      have hle : ((a :: l').take MAX_BATCH_SIZE).length ≤ 25 := by
        rw [List.length_take]
        exact le_trans (min_le_left _ _) (by decide)
      rw [List.all_cons, ih, Bool.and_true]
      exact decide_eq_true hle

/-- C4: the batch-delete loop partitions `n` keys into exactly `⌈n/25⌉`
sequential batch requests of at most 25 delete requests each, which together
cover every key exactly once (their concatenation is the key list); in
particular 57 keys yield exactly 3 requests of sizes 25, 25 and 7. -/
theorem batch_delete_chunks :
    (∀ (K : Type) (keys : List K),
      (batchRequests keys).length = (keys.length + 24) / 25 ∧
      ((batchRequests keys).all fun c => c.length ≤ 25) = true ∧
      (batchRequests keys).flatten = keys) ∧
    (batchRequests (List.range 57)).map List.length = [25, 25, 7] := by
  refine ⟨fun K keys => ⟨?_, ?_, ?_⟩, by decide⟩
  · exact batchRequestsGo_length keys.length keys (Nat.le_refl _)
  · exact batchRequestsGo_sizes keys.length keys
  · exact batchRequestsGo_join keys.length keys (Nat.le_refl _)

/-! ## Facade operation claims -/

/-- C6: `updateSessionExpiration` with a `newExpiry` strictly in the past
relative to call time takes the `else` branch and *is* `deleteSession`: the
resulting store is the deleted store, and a subsequent `getSessionAndUser`
for that id returns `(null, null)` under either user-lookup strategy; no
past expiry is ever written. -/
theorem updateSessionExpiration_past_deletes (cfg : AdapterConfig)
    (sessionId : String) (ms nowMs : Int) (store : Store) (h : ms < nowMs) :
    updateSessionExpiration cfg sessionId (some ms) nowMs store =
      deleteSession cfg sessionId store ∧
    ∀ g, getSessionAndUser cfg g
        (updateSessionExpiration cfg sessionId (some ms) nowMs store) sessionId =
      .ok (none, none) := by
  have heq : updateSessionExpiration cfg sessionId (some ms) nowMs store =
      deleteSession cfg sessionId store := by
    show (if ms > nowMs then conditionalExpiryUpdate cfg sessionId (ms.fdiv 1000) store
          else deleteSession cfg sessionId store) =
        deleteSession cfg sessionId store
    rw [if_neg (by omega)]
  refine ⟨heq, fun g => ?_⟩
  rw [heq]
  unfold getSessionAndUser deleteSession
  rw [find?_filter_not store (sessionKeyMatch cfg sessionId)]

/-- Witness for C6 on a concrete one-session store. -/
theorem updateSessionExpiration_past_deletes_witness :
    updateSessionExpiration defaultConfig "a" (some 5000) 6000
        [[("Pk", DbValue.vStr "Session#a"), ("Sk", DbValue.vStr "Session")]] =
      deleteSession defaultConfig "a"
        [[("Pk", DbValue.vStr "Session#a"), ("Sk", DbValue.vStr "Session")]] ∧
    getSessionAndUser defaultConfig none
        (updateSessionExpiration defaultConfig "a" (some 5000) 6000
          [[("Pk", DbValue.vStr "Session#a"), ("Sk", DbValue.vStr "Session")]])
        "a" = .ok (none, none) :=
  ⟨(updateSessionExpiration_past_deletes defaultConfig "a" 5000 6000 _
      (by decide)).1,
   (updateSessionExpiration_past_deletes defaultConfig "a" 5000 6000 _
      (by decide)).2 none⟩

/-- C7: with a future `newExpiry` the operation is the single conditional
update: it fails harmlessly (store unchanged — never creates or resurrects
an item) when no item carries the session key; on the targeted item it sets
exactly the two GSI sort keys and the numeric expiry attribute and changes
no other attribute; items not carrying the key survive unchanged. -/
theorem updateSessionExpiration_future_frame (cfg : AdapterConfig)
    (sessionId : String) (ms nowMs : Int) (store : Store) (h : nowMs < ms)
    (h12 : cfg.gsi1sk ≠ cfg.gsi2sk) (h1e : cfg.gsi1sk ≠ cfg.expires)
    (h2e : cfg.gsi2sk ≠ cfg.expires) :
    (updateSessionExpiration cfg sessionId (some ms) nowMs store =
      conditionalExpiryUpdate cfg sessionId (ms.fdiv 1000) store) ∧
    (store.any (sessionKeyMatch cfg sessionId) = false →
      updateSessionExpiration cfg sessionId (some ms) nowMs store = store) ∧
    (∀ o k, k ≠ cfg.gsi1sk → k ≠ cfg.gsi2sk → k ≠ cfg.expires →
      jsGet (applyExpiryUpdate cfg (ms.fdiv 1000) o) k = jsGet o k) ∧
    (∀ o, jsGet (applyExpiryUpdate cfg (ms.fdiv 1000) o) cfg.gsi1sk =
        some (.vStr ("Expires#" ++ jsIntStr (ms.fdiv 1000))) ∧
      jsGet (applyExpiryUpdate cfg (ms.fdiv 1000) o) cfg.gsi2sk =
        some (.vStr ("Expires#" ++ jsIntStr (ms.fdiv 1000))) ∧
      jsGet (applyExpiryUpdate cfg (ms.fdiv 1000) o) cfg.expires =
        some (.vNum (ms.fdiv 1000))) ∧
    (∀ o ∈ store, sessionKeyMatch cfg sessionId o = false →
      o ∈ updateSessionExpiration cfg sessionId (some ms) nowMs store) := by
  have heq : updateSessionExpiration cfg sessionId (some ms) nowMs store =
      conditionalExpiryUpdate cfg sessionId (ms.fdiv 1000) store := by
    show (if ms > nowMs then conditionalExpiryUpdate cfg sessionId (ms.fdiv 1000) store
          else deleteSession cfg sessionId store) =
        conditionalExpiryUpdate cfg sessionId (ms.fdiv 1000) store
    rw [if_pos h]
  refine ⟨heq, ?_, ?_, ?_, ?_⟩
  · intro hany
    rw [heq]
    unfold conditionalExpiryUpdate
    rw [hany]
    rfl
  · intro o k h1 h2 h3
    unfold applyExpiryUpdate
    rw [jsGet_jsSet_other _ _ _ _ h3, jsGet_jsSet_other _ _ _ _ h2,
      jsGet_jsSet_other _ _ _ _ h1]
  · intro o
    unfold applyExpiryUpdate
    refine ⟨?_, ?_, ?_⟩
    · rw [jsGet_jsSet_other _ _ _ _ h1e, jsGet_jsSet_other _ _ _ _ h12,
        jsGet_jsSet_self]
    · rw [jsGet_jsSet_other _ _ _ _ h2e, jsGet_jsSet_self]
    · rw [jsGet_jsSet_self]
  · intro o ho hkm
    rw [heq]
    unfold conditionalExpiryUpdate
    cases hany : store.any (sessionKeyMatch cfg sessionId) with
    | false => exact ho
    | true =>
      rw [if_pos rfl]
      apply List.mem_map.mpr
      exact ⟨o, ho, by rw [hkm]; rfl⟩

/-- Witness for C7: applied on a concrete store where the session is absent
(no item is created) and on a concrete item (only the expiry fields move). -/
theorem updateSessionExpiration_future_frame_witness :
    updateSessionExpiration defaultConfig "a" (some 5000) 1000
        [[("Pk", DbValue.vStr "Session#b"), ("Sk", DbValue.vStr "Session")]] =
      [[("Pk", DbValue.vStr "Session#b"), ("Sk", DbValue.vStr "Session")]] ∧
    jsGet (applyExpiryUpdate defaultConfig ((5000 : Int).fdiv 1000)
        [("Pk", DbValue.vStr "Session#a"), ("Role", DbValue.vStr "admin")])
      "Role" = some (DbValue.vStr "admin") :=
  ⟨(updateSessionExpiration_future_frame defaultConfig "a" 5000 1000 _
      (by decide) (by decide) (by decide) (by decide)).2.1 (by decide),
   (updateSessionExpiration_future_frame defaultConfig "a" 5000 1000 []
      (by decide) (by decide) (by decide) (by decide)).2.2.1
      [("Pk", DbValue.vStr "Session#a"), ("Role", DbValue.vStr "admin")]
      "Role" (by decide) (by decide) (by decide)⟩

/-- Absence of the referenced user under a given lookup strategy: the
pluggable `getUser` returns `null`, or (default) the `User#userId` point
read finds no item. -/
def userAbsent (cfg : AdapterConfig) (getUser : Option GetUserFn) (store : Store)
    (uid : Option String) : Prop :=
  match getUser with
  | some f => f uid = none
  | none => store.find? (userKeyMatch cfg (jsTemplate uid)) = none

/-- C8: `getSessionAndUser` returns `(null, null)` when no session item with
the id exists, and `(session, null)` when the session exists but its
referenced user is absent — under the default point read as well as under a
pluggable `getUser` strategy; absence is a normal result, never an error. -/
theorem getSessionAndUser_absence (cfg : AdapterConfig) (g : Option GetUserFn)
    (store : Store) (sessionId : String) :
    (store.find? (sessionKeyMatch cfg sessionId) = none →
      getSessionAndUser cfg g store sessionId = .ok (none, none)) ∧
    (∀ item s, store.find? (sessionKeyMatch cfg sessionId) = some item →
      itemToSession cfg item = .ok s →
      userAbsent cfg g store s.userId →
      getSessionAndUser cfg g store sessionId = .ok (some s, none)) := by
  constructor
  · intro h
    unfold getSessionAndUser
    rw [h]
  · intro item s hfind hconv habs
    unfold getSessionAndUser
    rw [hfind]
    show (match itemToSession cfg item with
          | Except.error e => Except.error e
          | Except.ok session =>
            match g with
            | some f => Except.ok (some session, f session.userId)
            | none =>
              match store.find? (userKeyMatch cfg (jsTemplate session.userId)) with
              | none => Except.ok (some session, none)
              | some uitem =>
                match itemToUser cfg uitem with
                | Except.error e => Except.error e
                | Except.ok user => Except.ok (some session, some user)) =
        Except.ok (some s, none)
    rw [hconv]
    cases g with
    | some f =>
      unfold userAbsent at habs
      show Except.ok (some s, f s.userId) = Except.ok (some s, none)
      rw [habs]
    | none =>
      unfold userAbsent at habs
      show (match store.find? (userKeyMatch cfg (jsTemplate s.userId)) with
            | none => Except.ok (some s, none)
            | some uitem =>
              match itemToUser cfg uitem with
              | Except.error e => Except.error e
              | Except.ok user => Except.ok (some s, some user)) =
          Except.ok (some s, none)
      rw [habs]

/-- Witness for C8: an empty store gives `(null, null)`, and a store holding
only the session gives `(session, null)` under the default user lookup. -/
theorem getSessionAndUser_absence_witness :
    getSessionAndUser defaultConfig none [] "zzz" = .ok (none, none) ∧
    getSessionAndUser defaultConfig none
        [[("Pk", DbValue.vStr "Session#a"), ("Sk", DbValue.vStr "Session"),
          ("Gs1Pk", DbValue.vStr "User#u1"), ("Expires", DbValue.vNum 17)]]
        "a" =
      .ok (some { id := some "a", userId := some "u1",
                  expiresAt := some 17000, attributes := [] }, none) :=
  ⟨(getSessionAndUser_absence defaultConfig none [] "zzz").1 (by decide),
   (getSessionAndUser_absence defaultConfig none
        [[("Pk", DbValue.vStr "Session#a"), ("Sk", DbValue.vStr "Session"),
          ("Gs1Pk", DbValue.vStr "User#u1"), ("Expires", DbValue.vNum 17)]]
        "a").2
      [("Pk", DbValue.vStr "Session#a"), ("Sk", DbValue.vStr "Session"),
       ("Gs1Pk", DbValue.vStr "User#u1"), ("Expires", DbValue.vNum 17)]
      { id := some "a", userId := some "u1", expiresAt := some 17000,
        attributes := [] }
      (by decide) (by decide) (by unfold userAbsent; decide)⟩

/-! ## Decimal encoding and lexicographic order (for the expiry sweep) -/

/-- Big-endian decimal digit characters of a natural number — the
specification-side characterization of `Nat.repr`. -/
def decBE (n : Nat) : List Char :=
  if _ : n < 10 then [Nat.digitChar n]
  else decBE (n / 10) ++ [Nat.digitChar (n % 10)]
termination_by n
decreasing_by exact Nat.div_lt_self (by omega) (by omega)

theorem toDigitsCore_eq_decBE :
    ∀ (fuel n : Nat) (ds : List Char), n < fuel →
      Nat.toDigitsCore 10 fuel n ds = decBE n ++ ds := by
  intro fuel
  induction fuel with
  | zero => intro n ds h; omega
  | succ fuel ih =>
    intro n ds h
    by_cases h0 : n / 10 = 0
    · have hn : n < 10 := by omega
      simp only [Nat.toDigitsCore, h0, if_pos, if_true]
      unfold decBE
      rw [dif_pos hn, Nat.mod_eq_of_lt hn]
      rfl
    · have hn : ¬ n < 10 := by omega
      have hdiv : n / 10 < fuel := by
        have h1 : n / 10 < n := Nat.div_lt_self (by omega) (by omega)
        omega
      simp only [Nat.toDigitsCore, h0, if_false]
      rw [ih (n / 10) (Nat.digitChar (n % 10) :: ds) hdiv]
      conv_rhs => rw [decBE]
      rw [dif_neg hn, List.append_assoc]
      rfl

theorem repr_data (n : Nat) : (Nat.repr n).data = decBE n := by
  have h : Nat.toDigits 10 n = decBE n := by
    show Nat.toDigitsCore 10 (n + 1) n [] = decBE n
    rw [toDigitsCore_eq_decBE (n + 1) n [] (Nat.lt_succ_self n), List.append_nil]
  show ((Nat.toDigits 10 n).asString).data = decBE n
  rw [h]
  rfl

theorem string_length_eq_data_length (s : String) : s.length = s.data.length := rfl

/-- Value of a digit character (`'0'` has code 48). -/
def digitVal (c : Char) : Nat := c.toNat - 48

/-- Numeric value of a big-endian digit-character list. -/
def valGo : Nat → List Char → Nat
  | acc, [] => acc
  | acc, c :: l => valGo (acc * 10 + digitVal c) l

def valOf (l : List Char) : Nat := valGo 0 l

/-- The characters some decimal representation can contain. -/
def IsDigits (l : List Char) : Prop :=
  ∀ c ∈ l, ∃ d, d < 10 ∧ c = Nat.digitChar d

set_option maxHeartbeats 1000000 in
theorem digitVal_digitChar : ∀ d < 10, digitVal (Nat.digitChar d) = d := by decide

set_option maxHeartbeats 1000000 in
theorem digitChar_lt_iff :
    ∀ a < 10, ∀ b < 10, (Nat.digitChar a < Nat.digitChar b ↔ a < b) := by decide

theorem valGo_nil (acc : Nat) : valGo acc [] = acc := rfl

theorem valGo_cons (acc : Nat) (c : Char) (l : List Char) :
    valGo acc (c :: l) = valGo (acc * 10 + digitVal c) l := rfl

theorem valGo_eq (l : List Char) : ∀ acc, valGo acc l = acc * 10 ^ l.length + valGo 0 l := by
  induction l with
  | nil => intro acc; rw [valGo_nil, valGo_nil]; simp
  | cons c l ih =>
    intro acc
    rw [valGo_cons, valGo_cons, ih (acc * 10 + digitVal c), ih (0 * 10 + digitVal c)]
    rw [List.length_cons]
    ring

theorem valOf_cons (c : Char) (l : List Char) :
    valOf (c :: l) = digitVal c * 10 ^ l.length + valOf l := by
  unfold valOf
  rw [valGo_cons, valGo_eq l (0 * 10 + digitVal c)]
  ring

theorem valOf_lt (l : List Char) (h : IsDigits l) : valOf l < 10 ^ l.length := by
  induction l with
  | nil => decide
  | cons c l ih =>
    obtain ⟨d, hd, hc⟩ := h c (List.mem_cons_self c l)
    have hdv : digitVal c = d := by rw [hc]; exact digitVal_digitChar d hd
    have hl : IsDigits l := fun x hx => h x (List.mem_cons_of_mem _ hx)
    have hlt := ih hl
    rw [valOf_cons, hdv, List.length_cons, pow_succ]
    have h9 : d * 10 ^ l.length ≤ 9 * 10 ^ l.length :=
      Nat.mul_le_mul_right _ (by omega)
    omega

theorem lex_lt_iff_val (xs : List Char) :
    ∀ ys, IsDigits xs → IsDigits ys → xs.length = ys.length →
      (List.lt xs ys ↔ valOf xs < valOf ys) := by
  induction xs with
  | nil =>
    intro ys _ _ hlen
    have hnil : ys = [] := List.eq_nil_of_length_eq_zero hlen.symm
    subst hnil
    constructor
    · intro h; cases h
    · intro h; exact absurd h (lt_irrefl _)
  | cons x xs ih =>
    intro ys hx hy hlen
    cases ys with
    | nil => simp at hlen
    | cons y ys =>
      obtain ⟨dx, hdx, hxeq⟩ := hx x (List.mem_cons_self x xs)
      obtain ⟨dy, hdy, hyeq⟩ := hy y (List.mem_cons_self y ys)
      have hxs : IsDigits xs := fun c hc => hx c (List.mem_cons_of_mem _ hc)
      have hys : IsDigits ys := fun c hc => hy c (List.mem_cons_of_mem _ hc)
      have hlen' : xs.length = ys.length := by simpa using hlen
      subst hxeq
      subst hyeq
      rw [valOf_cons, valOf_cons, digitVal_digitChar dx hdx,
        digitVal_digitChar dy hdy, hlen']
      have hbx : valOf xs < 10 ^ ys.length := by rw [← hlen']; exact valOf_lt xs hxs
      have hby : valOf ys < 10 ^ ys.length := valOf_lt ys hys
      constructor
      · intro hlt
        cases hlt with
        | head _ _ hc =>
          have hd : dx < dy := (digitChar_lt_iff dx hdx dy hdy).mp hc
          have h1 : (dx + 1) * 10 ^ ys.length ≤ dy * 10 ^ ys.length :=
            Nat.mul_le_mul_right _ (by omega)
          rw [Nat.succ_mul] at h1
          omega
        | tail hc1 hc2 htl =>
          have hd : dx = dy := by
            by_cases h1 : dx < dy
            · exact absurd ((digitChar_lt_iff dx hdx dy hdy).mpr h1) hc1
            · by_cases h2 : dy < dx
              · exact absurd ((digitChar_lt_iff dy hdy dx hdx).mpr h2) hc2
              · omega
          have hv := (ih ys hxs hys hlen').mp htl
          rw [hd]
          omega
      · intro hval
        rcases Nat.lt_trichotomy dx dy with hd | hd | hd
        · exact List.lt.head _ _ ((digitChar_lt_iff dx hdx dy hdy).mpr hd)
        · subst hd
          apply List.lt.tail
          · intro hc
            exact absurd ((digitChar_lt_iff dx hdx dx hdx).mp hc) (lt_irrefl dx)
          · intro hc
            exact absurd ((digitChar_lt_iff dx hdx dx hdx).mp hc) (lt_irrefl dx)
          · apply (ih ys hxs hys hlen').mpr
            omega
        · exfalso
          have h1 : (dy + 1) * 10 ^ ys.length ≤ dx * 10 ^ ys.length :=
            Nat.mul_le_mul_right _ (by omega)
          rw [Nat.succ_mul] at h1
          omega

theorem valGo_append (l₁ : List Char) :
    ∀ (acc : Nat) (l₂ : List Char), valGo acc (l₁ ++ l₂) = valGo (valGo acc l₁) l₂ := by
  induction l₁ with
  | nil => intro acc l₂; rw [List.nil_append, valGo_nil]
  | cons c l₁ ih =>
    intro acc l₂
    rw [List.cons_append, valGo_cons, valGo_cons, ih]

theorem valOf_append_one (l : List Char) (c : Char) :
    valOf (l ++ [c]) = valOf l * 10 + digitVal c := by
  unfold valOf
  rw [valGo_append, valGo_cons, valGo_nil]

theorem decBE_isDigits (n : Nat) : IsDigits (decBE n) := by
  induction n using Nat.strong_induction_on with
  | _ n ih =>
    unfold decBE
    by_cases h : n < 10
    · rw [dif_pos h]
      intro c hc
      simp only [List.mem_singleton] at hc
      exact ⟨n, h, hc⟩
    · rw [dif_neg h]
      intro c hc
      rcases List.mem_append.mp hc with hc | hc
      · exact ih (n / 10) (Nat.div_lt_self (by omega) (by omega)) c hc
      · simp only [List.mem_singleton] at hc
        exact ⟨n % 10, Nat.mod_lt n (by omega), hc⟩

theorem decBE_val (n : Nat) : valOf (decBE n) = n := by
  induction n using Nat.strong_induction_on with
  | _ n ih =>
    unfold decBE
    by_cases h : n < 10
    · rw [dif_pos h, valOf_cons, digitVal_digitChar n h]
      show n * 10 ^ ([] : List Char).length + valGo 0 [] = n
      rw [valGo_nil]
      simp
    · rw [dif_neg h, valOf_append_one,
        ih (n / 10) (Nat.div_lt_self (by omega) (by omega)),
        digitVal_digitChar (n % 10) (Nat.mod_lt n (by omega))]
      omega

theorem char_not_lt_self (c : Char) : ¬ c < c := fun h => lt_irrefl c h

theorem lt_append_left_iff (p xs ys : List Char) :
    (List.lt (p ++ xs) (p ++ ys) ↔ List.lt xs ys) := by
  induction p with
  | nil => exact Iff.rfl
  | cons c p ih =>
    rw [List.cons_append, List.cons_append]
    constructor
    · intro h
      cases h with
      | head _ _ hc => exact absurd hc (char_not_lt_self c)
      | tail h1 h2 htl => exact ih.mp htl
    · intro h
      exact List.lt.tail (char_not_lt_self c) (char_not_lt_self c) (ih.mpr h)

theorem charListLtB_iff (xs : List Char) :
    ∀ ys, charListLtB xs ys = true ↔ List.lt xs ys := by
  induction xs with
  | nil =>
    intro ys
    cases ys with
    | nil =>
      constructor
      · intro h; cases h
      · intro h; cases h
    | cons b bs =>
      constructor
      · intro _; exact List.lt.nil b bs
      · intro _; rfl
  | cons a as ih =>
    intro ys
    cases ys with
    | nil =>
      constructor
      · intro h; cases h
      · intro h; cases h
    | cons b bs =>
      show (if a < b then true else if b < a then false else charListLtB as bs) = true ↔ _
      by_cases hab : a < b
      · rw [if_pos hab]
        exact ⟨fun _ => List.lt.head as bs hab, fun _ => rfl⟩
      · rw [if_neg hab]
        by_cases hba : b < a
        · rw [if_pos hba]
          constructor
          · intro h; cases h
          · intro h
            cases h with
            | head _ _ hc => exact absurd hc hab
            | tail h1 h2 _ => exact absurd hba h2
        · rw [if_neg hba]
          constructor
          · intro h
            exact List.lt.tail hab hba ((ih bs).mp h)
          · intro h
            cases h with
            | head _ _ hc => exact absurd hc hab
            | tail h1 h2 htl => exact (ih bs).mpr htl

theorem repr_length_eq_decBE (n : Nat) : (Nat.repr n).length = (decBE n).length := by
  rw [string_length_eq_data_length, repr_data]

/-- Lexicographic comparison of two `"Expires#" + decimal` key strings of
equal digit count agrees with numeric comparison — the monotonicity property
the sweep's key condition relies on. -/
theorem expires_key_lt_iff (a b : Nat)
    (hlen : (Nat.repr a).length = (Nat.repr b).length) :
    (strLtB ("Expires#" ++ Nat.repr a) ("Expires#" ++ Nat.repr b) = true ↔ a < b) := by
  have hlen2 : (decBE a).length = (decBE b).length := by
    rw [← repr_length_eq_decBE, ← repr_length_eq_decBE]
    exact hlen
  unfold strLtB
  rw [charListLtB_iff, String.data_append, String.data_append,
    repr_data, repr_data, lt_append_left_iff,
    lex_lt_iff_val _ _ (decBE_isDigits a) (decBE_isDigits b) hlen2,
    decBE_val, decBE_val]

theorem jsIntStr_ofNat (n : Nat) : jsIntStr (n : Int) = Nat.repr n := by
  unfold jsIntStr
  rw [if_neg (by omega), Int.toNat_natCast]

theorem mem_of_contains {α : Type} [BEq α] [LawfulBEq α] (l : List α) (a : α)
    (h : l.contains a = true) : a ∈ l :=
  List.elem_iff.mp (h : l.elem a = true)

/-- C5 counterexample: the sweep's key condition compares the decimal
`Expires#` strings lexicographically, so a session whose expiry has fewer
digits than the sweep time is *not* deleted even though it is numerically
expired: at sweep time `t = 1000000000` a session expiring at `999999999 < t`
survives the sweep, contradicting the claim that exactly the sessions with
`expiresAt < t` are removed. -/
theorem deleteExpiredSessions_digit_counterexample :
    999999999 < 1000000000 ∧
    deleteExpiredSessions defaultConfig 1000000000
      [[("Pk", DbValue.vStr "Session#old"), ("Sk", DbValue.vStr "Session"),
        ("Gs1Pk", DbValue.vStr "User#u"), ("Gs1Sk", DbValue.vStr "Expires#999999999"),
        ("Gs2Pk", DbValue.vStr "Session"), ("Gs2Sk", DbValue.vStr "Expires#999999999"),
        ("Expires", DbValue.vNum 999999999)]] =
      [[("Pk", DbValue.vStr "Session#old"), ("Sk", DbValue.vStr "Session"),
        ("Gs1Pk", DbValue.vStr "User#u"), ("Gs1Sk", DbValue.vStr "Expires#999999999"),
        ("Gs2Pk", DbValue.vStr "Session"), ("Gs2Sk", DbValue.vStr "Expires#999999999"),
        ("Expires", DbValue.vNum 999999999)]] := by
  constructor
  · decide
  · decide

/-- C5 (amended): among stored session items whose encoded expiry has the
same decimal digit count as the sweep time `now` (e.g. all 10-digit epoch
values), `deleteExpiredSessions` removes exactly those with expiry `< now`:
an item with a unique primary key, second-index partition `"Session"` and
sort key `"Expires#" + e` survives the sweep iff `now ≤ e`. -/
theorem deleteExpiredSessions_sweep (cfg : AdapterConfig) (now e : Nat)
    (store : Store) (o : Item)
    (ho : o ∈ store)
    (hpk : jsGet o cfg.gsi2pk = some (.vStr "Session"))
    (hsk : jsGet o cfg.gsi2sk = some (.vStr ("Expires#" ++ Nat.repr e)))
    (hlen : (Nat.repr e).length = (Nat.repr now).length)
    (huniq : ∀ o2 ∈ store, itemKey cfg o2 = itemKey cfg o → o2 = o) :
    (o ∈ deleteExpiredSessions cfg (now : Int) store ↔ now ≤ e) := by
  have hmatch : expiredMatch cfg (now : Int) o = decide (e < now) := by
    unfold expiredMatch
    rw [hpk, hsk, jsIntStr_ofNat]
    rw [show ((some (DbValue.vStr "Session") == some (DbValue.vStr "Session"))) = true
      from rfl]
    rw [Bool.true_and]
    show strLtB ("Expires#" ++ Nat.repr e) ("Expires#" ++ Nat.repr now) =
      decide (e < now)
    by_cases hlt : e < now
    · rw [decide_eq_true hlt]
      exact (expires_key_lt_iff e now hlen).mpr hlt
    · have h1 : strLtB ("Expires#" ++ Nat.repr e) ("Expires#" ++ Nat.repr now) = false := by
        cases hb : strLtB ("Expires#" ++ Nat.repr e) ("Expires#" ++ Nat.repr now) with
        | false => rfl
        | true => exact absurd ((expires_key_lt_iff e now hlen).mp hb) hlt
      rw [h1, decide_eq_false hlt]
  have hkeys : (((store.filter (expiredMatch cfg (now : Int))).map
        (itemKey cfg)).contains (itemKey cfg o) = true) ↔ e < now := by
    constructor
    · intro hc
      obtain ⟨x, hxmem, hxkey⟩ := List.mem_map.mp (mem_of_contains _ _ hc)
      obtain ⟨hxstore, hxmatch⟩ := List.mem_filter.mp hxmem
      have hxo : x = o := huniq x hxstore hxkey
      rw [hxo, hmatch] at hxmatch
      exact of_decide_eq_true hxmatch
    · intro hlt
      apply contains_eq_true_of_mem
      apply List.mem_map.mpr
      refine ⟨o, List.mem_filter.mpr ⟨ho, ?_⟩, rfl⟩
      rw [hmatch]
      exact decide_eq_true hlt
  unfold deleteExpiredSessions
  rw [List.mem_filter]
  constructor
  · rintro ⟨_, hnc⟩
    by_contra hcon
    have hlt : e < now := by omega
    rw [hkeys.mpr hlt] at hnc
    exact Bool.false_ne_true hnc
  · intro hle
    refine ⟨ho, ?_⟩
    have hfalse : ((store.filter (expiredMatch cfg (now : Int))).map
        (itemKey cfg)).contains (itemKey cfg o) = false := by
      cases hb : ((store.filter (expiredMatch cfg (now : Int))).map
          (itemKey cfg)).contains (itemKey cfg o) with
      | false => rfl
      | true => exact absurd (hkeys.mp hb) (by omega)
    rw [hfalse]
    rfl

/-- Witness for C5 (amended): a 10-digit-expiry session not yet expired at a
10-digit sweep time survives the sweep. -/
theorem deleteExpiredSessions_sweep_witness :
    ([("Pk", DbValue.vStr "Session#a"), ("Sk", DbValue.vStr "Session"),
      ("Gs2Pk", DbValue.vStr "Session"),
      ("Gs2Sk", DbValue.vStr ("Expires#" ++ Nat.repr 1700000100)),
      ("Expires", DbValue.vNum 1700000100)] : Item) ∈
      deleteExpiredSessions defaultConfig (1700000000 : Int)
        [[("Pk", DbValue.vStr "Session#a"), ("Sk", DbValue.vStr "Session"),
          ("Gs2Pk", DbValue.vStr "Session"),
          ("Gs2Sk", DbValue.vStr ("Expires#" ++ Nat.repr 1700000100)),
          ("Expires", DbValue.vNum 1700000100)]] :=
  (deleteExpiredSessions_sweep defaultConfig 1700000000 1700000100
      [[("Pk", DbValue.vStr "Session#a"), ("Sk", DbValue.vStr "Session"),
        ("Gs2Pk", DbValue.vStr "Session"),
        ("Gs2Sk", DbValue.vStr ("Expires#" ++ Nat.repr 1700000100)),
        ("Expires", DbValue.vNum 1700000100)]]
      [("Pk", DbValue.vStr "Session#a"), ("Sk", DbValue.vStr "Session"),
       ("Gs2Pk", DbValue.vStr "Session"),
       ("Gs2Sk", DbValue.vStr ("Expires#" ++ Nat.repr 1700000100)),
       ("Expires", DbValue.vNum 1700000100)]
      (by decide) (by decide) (by decide) (by decide) (by decide)).mpr (by omega)
